import Mathlib

/-!
Verification development for the aion2-templar-helper repository.

The Python modules under `src/modules` are shallowly embedded below:
* `hardware_input.py` (serial channel, key presses, Bezier mouse movement),
* `bot.py` (timing jitter, state-machine idle handler, weave, defense skills),
* `vision.py` (sensor reads with fail-open / fail-safe defaults),
* `controller.py` (lifecycle start/stop).

Timing values are modelled over `ℚ` (the Python code uses floats; every
property proved here depends only on order/field reasoning, not on rounding).
Randomness (`random.gauss`, `random.randint`) and the outside world
(serial-write success, sensor readings, thread-join outcomes, the shared
`running` flag observed at each blocking point) are modelled as explicit
environment inputs, universally quantified in the theorems.
-/

/-- Wire commands of the serial protocol (`KEY_DOWN,<TOK>` / `KEY_UP,<TOK>` /
`MOUSE_MOVE,<dx>,<dy>`), as produced by `hardware_input.py`. -/
inductive Cmd where
  | keyDown (tok : String)
  | keyUp (tok : String)
  | mouseMove (dx dy : Int)
deriving DecidableEq, Repr

/-- One call to `HardwareInput.send_serial_command`: the command submitted and
whether the send reported success. -/
structure Attempt where
  cmd : Cmd
  ok : Bool
deriving DecidableEq, Repr

/- ### Timing engine (`bot.py` lines 49-60, `Bot.smart_sleep`) -/

/-- Duration actually slept by `Bot.smart_sleep(duration, jitter_range)`:
the raw gaussian draw `g` (from `random.gauss(0, jitter_range/2)`) is clamped
to `[-jitter_range, jitter_range]` and the result `duration + jitter` is
floored at `0.01` seconds. -/
def smart_sleep_duration (duration jitter_range g : ℚ) : ℚ :=
  let jitter := max (-jitter_range) (min jitter_range g)
  max (1/100) (duration + jitter)

/-- Delay produced by `utils.random_delay(min_delay, max_delay, "gaussian")`:
a draw `g` from `gauss((min+max)/2, (max-min)/6)` clamped to
`[min_delay, max_delay]`. -/
def random_delay_gaussian (min_delay max_delay g : ℚ) : ℚ :=
  max min_delay (min max_delay g)

/- ### Serial command channel (`hardware_input.py` lines 23-103) -/

/-- Observable events of one `send_serial_command` call. -/
inductive SerialEvent where
  | reopen (ok : Bool)
  | write (cmd : String)
  | readAck (line : String)
deriving DecidableEq, Repr

/-- Environment of one `send_serial_command` call: outcome of a reopen via
`init_serial` if one is needed, whether the flush/write raises, and the line
returned by `readline` when an acknowledgement is awaited. -/
structure SendEnv where
  reopenOk : Bool
  writeOk : Bool
  ackLine : String
deriving Repr

/-- Result of `send_serial_command`: link state afterwards, reported success,
and the events that occurred, in order. -/
structure SendResult where
  isOpen : Bool
  ok : Bool
  events : List SerialEvent
deriving Repr

/-- Model of `HardwareInput.send_serial_command(command, wait_ack)`
(`hardware_input.py` lines 67-103).  If the link is closed it first calls
`init_serial` (event `reopen`); a failed reopen returns `False` with nothing
written.  A write exception closes the link and returns `False`.  With
`wait_ack` the reply line must be the literal `OK`. -/
def send_serial_command (isOpen : Bool) (env : SendEnv) (command : String)
    (wait_ack : Bool) : SendResult :=
  let pre : List SerialEvent := if isOpen then [] else [.reopen env.reopenOk]
  if ¬ isOpen ∧ ¬ env.reopenOk then
    { isOpen := false, ok := false, events := pre }
  else if ¬ env.writeOk then
    -- exception in flushInput/write/flush: close the link, report failure
    { isOpen := false, ok := false, events := pre }
  else if wait_ack then
    { isOpen := true
      ok := env.ackLine = "OK"
      events := pre ++ [.write command, .readAck env.ackLine] }
  else
    { isOpen := true, ok := true, events := pre ++ [.write command] }

/-- Recognizer for `reopen` events. -/
def SerialEvent.isReopen : SerialEvent → Bool
  | .reopen _ => true
  | _ => false

/-- Recognizer for `write` events. -/
def SerialEvent.isWrite : SerialEvent → Bool
  | .write _ => true
  | _ => false

/- ### Key presses and mouse clicks (`hardware_input.py` lines 185-290) -/

/-- Runtime environment of one down/up command pair inside `press_key` or one
click iteration inside `click_mouse`: outcomes of the two
`send_serial_command` calls and the two gaussian draws (hold duration and the
inter-action interval). -/
structure PressEnv where
  downOk : Bool
  upOk : Bool
  g : ℚ
  gInterval : ℚ
deriving Repr

/-- Hold delay used between `KEY_DOWN` and `KEY_UP`: the draw
`gauss((min+max)/2, (max-min)/4)` clamped to `[min_duration, max_duration]`
(`hardware_input.py` lines 264-265 and 218-219). -/
def hold_delay (minDur maxDur g : ℚ) : ℚ :=
  max minDur (min maxDur g)

/-- Result of a `press_key` / `click_mouse` call: reported success, the
sequence of serial-command attempts, and the hold delay between the down and
the up event (meaningful whenever both were attempted). -/
structure PressResult where
  ok : Bool
  attempts : List Attempt
  delay : ℚ
deriving Repr

/-- Mouse-button token chosen by `click_mouse` (`hardware_input.py`
lines 196-202): `left` is `MOUSE1`, `right` is `MOUSE2`, anything else is an
error. -/
def mouse_code : String → Option String
  | "left" => some "MOUSE1"
  | "right" => some "MOUSE2"
  | _ => none

/-- One iteration of the click loop in `click_mouse`: checks the `running`
flag, sends `KEY_DOWN,<code>`, sleeps the clamped hold delay, sends
`KEY_UP,<code>`. -/
def click_once (code : String) (minDur maxDur : ℚ) (running : Bool)
    (env : PressEnv) : PressResult :=
  if ¬ running then { ok := false, attempts := [], delay := 0 }
  else if ¬ env.downOk then
    { ok := false, attempts := [⟨.keyDown code, false⟩], delay := 0 }
  else if ¬ env.upOk then
    { ok := false
      attempts := [⟨.keyDown code, true⟩, ⟨.keyUp code, false⟩]
      delay := hold_delay minDur maxDur env.g }
  else
    { ok := true
      attempts := [⟨.keyDown code, true⟩, ⟨.keyUp code, true⟩]
      delay := hold_delay minDur maxDur env.g }

/-- Click loop of `HardwareInput.click_mouse` over `clicks` iterations
(`hardware_input.py` lines 209-230); each iteration draws its environment
from `envs`. -/
def click_loop (code : String) (minDur maxDur : ℚ) (running : Bool)
    (envs : Nat → PressEnv) : Nat → Nat → Bool × List Attempt
  | _, 0 => (true, [])
  | i, n + 1 =>
    let r := click_once code minDur maxDur running (envs i)
    if ¬ r.ok then (false, r.attempts)
    else
      let rest := click_loop code minDur maxDur running envs (i + 1) n
      (rest.1, r.attempts ++ rest.2)

/-- Model of `HardwareInput.click_mouse(button, clicks, ...)`
(`hardware_input.py` lines 185-233). -/
def click_mouse (button : String) (clicks : Nat) (minDur maxDur : ℚ)
    (running : Bool) (envs : Nat → PressEnv) : PressResult :=
  match mouse_code button with
  | none => { ok := false, attempts := [], delay := 0 }
  | some code =>
    let r := click_loop code minDur maxDur running envs 0 clicks
    { ok := r.1, attempts := r.2, delay := hold_delay minDur maxDur (envs 0).g }

/-- Model of `HardwareInput.press_key(key, min_duration, max_duration,
running)` (`hardware_input.py` lines 235-290).  The keys `mouse1`/`mouse2`
delegate to `click_mouse` with one click; keyboard keys are upper-cased and
bracketed by one `KEY_DOWN` and one `KEY_UP` send with a clamped gaussian
hold delay between them, followed by an uninterruptible inter-action
`time.sleep` that cannot fail the call. -/
def press_key (key : String) (minDur maxDur : ℚ) (running : Bool)
    (env : PressEnv) : PressResult :=
  if key = "mouse1" then
    click_mouse "left" 1 minDur maxDur running (fun _ => env)
  else if key = "mouse2" then
    click_mouse "right" 1 minDur maxDur running (fun _ => env)
  else
    let tok := key.toUpper
    if ¬ env.downOk then
      { ok := false, attempts := [⟨.keyDown tok, false⟩], delay := 0 }
    else if ¬ env.upOk then
      { ok := false
        attempts := [⟨.keyDown tok, true⟩, ⟨.keyUp tok, false⟩]
        delay := hold_delay minDur maxDur env.g }
    else
      { ok := true
        attempts := [⟨.keyDown tok, true⟩, ⟨.keyUp tok, true⟩]
        delay := hold_delay minDur maxDur env.g }

/- ### Weave primitives (`bot.py` lines 300-398) -/

/-- Weave timing configuration consumed from `config.WEAVE_CONFIG` (the
configuration module is external to `src/`; the fields are parameters here).
`attackDelay` and `skillDelay` are the keypress `(min, max)` ranges. -/
structure WeaveCfg where
  attackMin : ℚ
  attackMax : ℚ
  skillMin : ℚ
  skillMax : ℚ
deriving Repr

/-- Runtime environment of one `moving_weave` call: outcome of the
`KEY_DOWN,W` send, of the three interruptible `smart_sleep`s, the
environments of the two inner `press_key` calls, the `running` flag they
observe, and the outcome of the `KEY_UP,W` send in the `finally` block. -/
structure WeaveEnv where
  sendDownW : Bool
  sleepMoveOk : Bool
  attackEnv : PressEnv
  sleepWindupOk : Bool
  skillEnv : PressEnv
  sleepAfterOk : Bool
  sendUpW : Bool
  running : Bool
deriving Repr

/-- Body of the `try` block of `Bot.moving_weave` (`bot.py` lines 368-389):
attack press (result ignored), windup sleep, skill press, post-skill sleep;
the first failure aborts the body. -/
def moving_weave_body (cfg : WeaveCfg) (attackKey skillKey : String)
    (env : WeaveEnv) : Bool × List Attempt :=
  let aTr := (press_key attackKey cfg.attackMin cfg.attackMax env.running
    env.attackEnv).attempts
  if ¬ env.sleepWindupOk then (false, aTr)
  else
    let s := press_key skillKey cfg.skillMin cfg.skillMax env.running
      env.skillEnv
    if ¬ s.ok then (false, aTr ++ s.attempts)
    else if ¬ env.sleepAfterOk then (false, aTr ++ s.attempts)
    else (true, aTr ++ s.attempts)

/-- Model of `Bot.moving_weave` (`bot.py` lines 340-398).  Sends
`KEY_DOWN,W`; on send failure returns immediately.  If the short post-press
sleep is interrupted it explicitly sends `KEY_UP,W` and returns.  Otherwise
the weave body runs inside `try`, and the `finally` block always appends the
`KEY_UP,W` send, whatever the body did. -/
def moving_weave (cfg : WeaveCfg) (attackKey skillKey : String)
    (env : WeaveEnv) : Bool × List Attempt :=
  if ¬ env.sendDownW then (false, [⟨.keyDown "W", false⟩])
  else if ¬ env.sleepMoveOk then
    (false, [⟨.keyDown "W", true⟩, ⟨.keyUp "W", env.sendUpW⟩])
  else
    let b := moving_weave_body cfg attackKey skillKey env
    (b.1, ⟨.keyDown "W", true⟩ :: (b.2 ++ [⟨.keyUp "W", env.sendUpW⟩]))

/- ### Target selection and the idle state (`bot.py` lines 62-88, 400-435) -/

/-- Sensor/timing environment of one attempt inside `Bot.select_target`:
the `press_key` environment of the tab press (result ignored), the two
interruptible `smart_sleep` outcomes, and the `check_has_target` reading. -/
structure SelEnv where
  sleepOk : Bool
  hasTarget : Bool
  sleepRetryOk : Bool
deriving Repr

/-- Attempt loop of `Bot.select_target` (`bot.py` lines 62-88): up to
`maxAttempts` rounds of press-select-key, settle sleep, sensor check, retry
sleep; returns `true` as soon as the sensor reports a target, `false` when
a sleep is interrupted or all attempts are exhausted. -/
def select_target (envs : Nat → SelEnv) : Nat → Nat → Bool
  | _, 0 => false
  | i, n + 1 =>
    let e := envs i
    if ¬ e.sleepOk then false
    else if e.hasTarget then true
    else if ¬ e.sleepRetryOk then false
    else select_target envs (i + 1) n

/-- Behavior states of `Bot` (`bot.py` lines 15-18). -/
inductive BState where
  | idle
  | combat
  | loot
  | rest
deriving DecidableEq, Repr

/-- Stuck threshold `Bot.MAX_STUCK_COUNT` (`bot.py` line 40). -/
def MAX_STUCK_COUNT : Nat := 10

/-- Environment of one idle-state cycle of `Bot.bot_loop`: the top-level
`check_has_target` reading and the result of the `select_target` call. -/
structure IdleEnv where
  hasTarget : Bool
  selectOk : Bool
deriving Repr

/-- Result of one idle-state cycle: next state, new stuck counter, and the
keys pressed by the anti-stuck maneuver (empty when it did not fire).  The
`is_first_attack` flag (reset only on a transition to combat) is not tracked
here, and the select-key presses happen inside `select_target`. -/
structure IdleStep where
  state : BState
  stuck : Nat
  maneuver : List String
deriving DecidableEq, Repr

/-- Idle branch of `Bot.bot_loop` (`bot.py` lines 410-435).  A sensed or
selected target moves to combat and resets the counter; otherwise the stuck
counter is incremented and, once it reaches `MAX_STUCK_COUNT`, the anti-stuck
maneuver presses `s` twice and `space` once and the counter resets to zero. -/
def idle_handler (stuck : Nat) (e : IdleEnv) : IdleStep :=
  if e.hasTarget then
    { state := .combat, stuck := 0, maneuver := [] }
  else if e.selectOk then
    { state := .combat, stuck := 0, maneuver := [] }
  else
    let s := stuck + 1
    if MAX_STUCK_COUNT ≤ s then
      { state := .idle, stuck := 0, maneuver := ["s", "s", "space"] }
    else
      { state := .idle, stuck := s, maneuver := [] }

/-- Iterated idle cycles: stuck counter and number of anti-stuck maneuvers
fired after `k` cycles whose environments come from `envs`, starting from a
zero counter. -/
def idle_iter (envs : Nat → IdleEnv) : Nat → Nat × Nat
  | 0 => (0, 0)
  | k + 1 =>
    let p := idle_iter envs k
    let st := idle_handler p.1 (envs k)
    (st.stuck, p.2 + (if st.maneuver = [] then 0 else 1))

/- ### Defensive skill selection (`bot.py` lines 193-256) -/

/-- Defense configuration consumed by `Bot.use_defense_skills`:
`priorities` is `config.DEFENSE_SKILL_PRIORITIES` (skill name, health
threshold), `skills` is `config.DEFENSE_SKILLS` (name to key; `none` for a
missing or empty entry), `cooldownCfg` is `config.SKILL_COOLDOWNS` (the
configuration module is external to `src/`, so these are parameters). -/
structure DefCfg where
  priorities : List (String × ℚ)
  skills : String → Option String
  cooldownCfg : String → Option ℚ

/-- Runtime environment of one iteration of the defense loop: the
`self.running` reading at the top, the `time.time()` values at the cooldown
check and at the cooldown record, and the `smart_sleep` outcome after a
fire. -/
structure DefStepEnv where
  running : Bool
  checkTime : ℚ
  recordTime : ℚ
  sleepOk : Bool
deriving Repr

/-- Record of one fired defensive skill, including the data the firing
conditions were evaluated against. -/
structure FireRec where
  name : String
  key : String
  thr : ℚ
  checkTime : ℚ
  recordTime : ℚ
  cdAtCheck : Option ℚ
deriving DecidableEq, Repr

/-- Main defensive skills of the templar (`bot.py` line 255); after one of
these fires the loop breaks immediately. -/
def major_defense_skills : List String := ["dual_armor", "god_armor", "nazeal_shield"]

/-- Cooldown recording of `bot.py` lines 245-248: when the fired skill has a
configured cooldown, its table entry becomes the record time plus that
cooldown; otherwise the table is unchanged. -/
def record_cooldown (cfg : DefCfg) (name : String) (recordTime : ℚ)
    (cd : String → Option ℚ) : String → Option ℚ :=
  fun n =>
    match cfg.cooldownCfg name with
    | some c => if n = name then some (recordTime + c) else cd n
    | none => cd n

/-- Loop of `Bot.use_defense_skills` (`bot.py` lines 212-256) over the
remaining priority list.  Arguments after the configuration: current health
reading, per-iteration environments, remaining `(name, threshold)` items,
iteration index, cooldown table, keys already used, count of skills used.
Returns the fired records in order and the final cooldown table. -/
def defense_go (cfg : DefCfg) (health : ℚ) (envs : Nat → DefStepEnv) :
    List (String × ℚ) → Nat → (String → Option ℚ) → List String → Nat →
    List FireRec × (String → Option ℚ)
  | [], _, cd, _, _ => ([], cd)
  | (name, thr) :: rest, i, cd, used, count =>
    let e := envs i
    if ¬ e.running then ([], cd)
    else if 2 ≤ count then ([], cd)
    else
      match cfg.skills name with
      | none => defense_go cfg health envs rest (i + 1) cd used count
      | some key =>
        if health ≤ thr then
          if (cd name).any (fun t => decide (e.checkTime < t)) then
            defense_go cfg health envs rest (i + 1) cd used count
          else if key ∈ used then
            defense_go cfg health envs rest (i + 1) cd used count
          else
            let rec1 : FireRec :=
              { name := name, key := key, thr := thr
                checkTime := e.checkTime, recordTime := e.recordTime
                cdAtCheck := cd name }
            let cd1 := record_cooldown cfg name e.recordTime cd
            if ¬ e.sleepOk then ([rec1], cd1)
            else if name ∈ major_defense_skills then ([rec1], cd1)
            else
              let r := defense_go cfg health envs rest (i + 1) cd1
                (used ++ [key]) (count + 1)
              (rec1 :: r.1, r.2)
        else defense_go cfg health envs rest (i + 1) cd used count

/-- Model of `Bot.use_defense_skills` (`bot.py` lines 193-256): runs the
priority loop from an initial cooldown table with no skills used yet.
`health` is the `check_health` reading taken at the start of the pass. -/
def use_defense_skills (cfg : DefCfg) (health : ℚ) (envs : Nat → DefStepEnv)
    (cd0 : String → Option ℚ) : List FireRec × (String → Option ℚ) :=
  defense_go cfg health envs cfg.priorities 0 cd0 [] 0

/- ### Vision sensor (`vision.py` lines 40-129) -/

/-- Captured screen region: dimensions and an RGB pixel function (row,
column to red/green/blue). -/
structure Image where
  width : Nat
  height : Nat
  px : Nat → Nat → Nat × Nat × Nat

/-- Red-pixel test used for both the target bar and the health bar
(`vision.py` lines 70 and 116): `R > 150`, `G < 100`, `B < 100`. -/
def is_red (c : Nat × Nat × Nat) : Bool :=
  decide (150 < c.1) && decide (c.2.1 < 100) && decide (c.2.2 < 100)

/-- Truncation of a rational toward zero, the behaviour of Python `int()`
on a nonnegative value (all uses below are nonnegative). -/
def pyIntNat (q : ℚ) : Nat := (Int.floor q).toNat

/-- Scan of `Vision.check_has_target` over a successful screenshot
(`vision.py` lines 58-76): ten sample points spread across the target bar at
`x = int(width * (0.1 + i * 0.08))`, `y = int(height / 2)`; the target is
reported present when any in-bounds sample is red. -/
def target_scan (img : Image) : Bool :=
  (List.range 10).any fun i =>
    let cx := pyIntNat ((img.width : ℚ) * (1/10 + (i : ℚ) * (2/25)))
    let cy := pyIntNat ((img.height : ℚ) / 2)
    decide (cx < img.width) && decide (cy < img.height) && is_red (img.px cy cx)

/-- Model of `Vision.check_has_target` (`vision.py` lines 40-81): the input
is the outcome of the fallible screen read (`Except.error` covers both a
`grab_screenshot` returning `None` and any exception in the body).  A read
error yields `true` — assume a target is present (fail open); no error is
ever propagated, as the function is total. -/
def check_has_target (read : Except String Image) : Bool :=
  match read with
  | .error _ => true
  | .ok img => target_scan img

/-- Scan of `Vision.check_health` over a successful screenshot (`vision.py`
lines 95-124): probes the health bar at 90%..10% of its width from the
right and reports the first red sample as the health percentage, clamped to
`[0, 100]`; no red sample means 0. -/
def health_scan (img : Image) : ℚ :=
  let pcts : List ℚ := [9/10, 8/10, 7/10, 6/10, 5/10, 4/10, 3/10, 2/10, 1/10]
  let hit := pcts.find? fun p =>
    let cx := pyIntNat ((img.width : ℚ) * p)
    let cy := pyIntNat ((img.height : ℚ) / 2)
    decide (cx < img.width) && decide (cy < img.height) && is_red (img.px cy cx)
  max 0 (min 100 ((hit.getD 0) * 100))

/-- Model of `Vision.check_health` (`vision.py` lines 83-129): a read error
yields 0 percent health (fail safe, triggering defensive behaviour); no
error is ever propagated, as the function is total. -/
def check_health (read : Except String Image) : ℚ :=
  match read with
  | .error _ => 0
  | .ok img => health_scan img

/- ### Bezier mouse movement (`hardware_input.py` lines 105-183) -/

/-- Linear interpolation of one De Casteljau reduction step
(`hardware_input.py` lines 136-137). -/
def lerp (t : ℚ) (p q : ℚ × ℚ) : ℚ × ℚ :=
  ((1 - t) * p.1 + t * q.1, (1 - t) * p.2 + t * q.2)

/-- One pass of the inner `for i in range(n)` loop of the De Casteljau
evaluation: adjacent interpolation, shrinking the list by one. -/
def deCasteljauStep (t : ℚ) : List (ℚ × ℚ) → List (ℚ × ℚ)
  | p :: q :: rest => lerp t p q :: deCasteljauStep t (q :: rest)
  | _ => []

/-- Iterated reduction passes (`while n > 0` of `hardware_input.py`
lines 134-139). -/
def deCasteljauAux (t : ℚ) : Nat → List (ℚ × ℚ) → List (ℚ × ℚ)
  | 0, l => l
  | n + 1, l => deCasteljauAux t n (deCasteljauStep t l)

/-- De Casteljau evaluation of the Bezier curve through `l` at parameter
`t`: `l.length - 1` reduction passes, then the head. -/
def deCasteljau (t : ℚ) (l : List (ℚ × ℚ)) : ℚ × ℚ :=
  (deCasteljauAux t (l.length - 1) l).headD (0, 0)

/-- Truncation of a rational point to integers, the behaviour of Python
`int()` (toward zero) applied to both coordinates (`hardware_input.py`
line 141). -/
def truncPt (p : ℚ × ℚ) : ℤ × ℤ :=
  ((if p.1 < 0 then -Int.floor (-p.1) else Int.floor p.1),
   (if p.2 < 0 then -Int.floor (-p.2) else Int.floor p.2))

/-- Control-point list built by `generate_bezier_curve` with
`control_points = 2` (`hardware_input.py` lines 114-123): the start, two
randomly perturbed interior points at 1/3 and 2/3 (`off1`, `off2` are the
`random.randint(-5, 5)` draws), and the end. -/
def bezier_points (start fin : ℤ × ℤ) (off1 off2 : ℤ × ℤ) : List (ℚ × ℚ) :=
  [((start.1 : ℚ), (start.2 : ℚ)),
   ((start.1 : ℚ) + ((fin.1 : ℚ) - (start.1 : ℚ)) * (1/3) + (off1.1 : ℚ),
    (start.2 : ℚ) + ((fin.2 : ℚ) - (start.2 : ℚ)) * (1/3) + (off1.2 : ℚ)),
   ((start.1 : ℚ) + ((fin.1 : ℚ) - (start.1 : ℚ)) * (2/3) + (off2.1 : ℚ),
    (start.2 : ℚ) + ((fin.2 : ℚ) - (start.2 : ℚ)) * (2/3) + (off2.2 : ℚ)),
   ((fin.1 : ℚ), (fin.2 : ℚ))]

/-- Model of `HardwareInput.generate_bezier_curve(start, end,
control_points=2, steps)` (`hardware_input.py` lines 105-143): the curve is
sampled at `t = 0/steps .. steps/steps` and each sample is truncated to
integer coordinates. -/
def generate_bezier_curve (start fin : ℤ × ℤ) (off1 off2 : ℤ × ℤ)
    (steps : Nat) : List (ℤ × ℤ) :=
  (List.range (steps + 1)).map fun t : Nat =>
    truncPt (deCasteljau ((t : ℚ) / (steps : ℚ)) (bezier_points start fin off1 off2))

/-- Per-step relative displacements between consecutive sampled points
(`hardware_input.py` lines 160-171). -/
def stepDeltas : List (ℤ × ℤ) → List (ℤ × ℤ)
  | p :: q :: rest => (q.1 - p.1, q.2 - p.2) :: stepDeltas (q :: rest)
  | _ => []

/-- Componentwise sum of a list of integer displacements. -/
def sumPts : List (ℤ × ℤ) → ℤ × ℤ
  | [] => (0, 0)
  | d :: ds => (d.1 + (sumPts ds).1, d.2 + (sumPts ds).2)

/-- Walk of the sampled curve (`for i in range(1, len(curve_points))` of
`hardware_input.py` lines 160-180): per step the `running` flag is checked
and one `MOUSE_MOVE` command is submitted; a failed send or a cleared flag
aborts the walk.  Returns the reported success and the commands
submitted. -/
def mouse_walk (running : Bool) (sendOk : Nat → Bool) :
    List (ℤ × ℤ) → Nat → Bool × List Cmd
  | [], _ => (true, [])
  | d :: rest, i =>
    if ¬ running then (false, [])
    else if ¬ sendOk i then (false, [Cmd.mouseMove d.1 d.2])
    else
      let r := mouse_walk running sendOk rest (i + 1)
      (r.1, Cmd.mouseMove d.1 d.2 :: r.2)

/-- Model of `HardwareInput.send_mouse_input(dx, dy, running)`
(`hardware_input.py` lines 145-183): samples the Bezier curve from `(0, 0)`
to `(dx, dy)` with 2 control points and 20 steps and walks it with
`mouse_walk`, one `MOUSE_MOVE` command per consecutive pair of points. -/
def send_mouse_input (dx dy : ℤ) (off1 off2 : ℤ × ℤ) (running : Bool)
    (sendOk : Nat → Bool) : Bool × List Cmd :=
  mouse_walk running sendOk (stepDeltas (generate_bezier_curve (0, 0) (dx, dy) off1 off2 20)) 0

/- ### Lifecycle controller (`controller.py` lines 41-97) -/

/-- Abstract state of `BotController`: the shared `running` flag and the
number of live worker threads. -/
structure Ctrl where
  running : Bool
  alive : Nat
deriving DecidableEq, Repr

/-- Environment of one `stop()` call: whether the worker thread terminated
within the bounded `join(timeout=2.0)`. -/
structure StopEnv where
  joined : Bool
deriving Repr

/-- Model of `BotController.start` (`controller.py` lines 41-66): a no-op
returning `False` while already running, otherwise sets `running` and
launches one new worker thread. -/
def ctrl_start (c : Ctrl) : Ctrl × Bool :=
  if c.running then (c, false)
  else ({ running := true, alive := c.alive + 1 }, true)

/-- Model of `BotController.stop` (`controller.py` lines 68-97): a no-op
returning `False` when not running, otherwise clears `running` and joins the
worker with a bounded timeout; when the join times out (`e.joined = false`)
it only logs a warning and proceeds with the worker still alive. -/
def ctrl_stop (e : StopEnv) (c : Ctrl) : Ctrl × Bool :=
  if ¬ c.running then (c, false)
  else if 0 < c.alive ∧ e.joined then
    ({ running := false, alive := c.alive - 1 }, true)
  else
    ({ running := false, alive := c.alive }, true)

/-- Invariants of one defensive-skill selection pass, relative to the
remaining priority list `l`, the cooldown table `cd` and keys `used` at its
start, and the running count `count`: fired keys are distinct and disjoint
from `used`, at most `2 - count` more skills fire, every fired skill was
listed with its threshold at or above the health reading, was configured,
and was off cooldown at its check time, recorded cooldowns survive into the
final table, at most the last fired skill is a major one, and table entries
of skills whose key was already used are untouched. -/
def DefenseInv (cfg : DefCfg) (health : ℚ) (l : List (String × ℚ))
    (cd : String → Option ℚ) (used : List String) (count : Nat)
    (r : List FireRec × (String → Option ℚ)) : Prop :=
  ((r.1.map FireRec.key).Nodup) ∧
  (∀ rec ∈ r.1, rec.key ∉ used) ∧
  (r.1.length ≤ 2 - count) ∧
  (∀ rec ∈ r.1, (rec.name, rec.thr) ∈ l ∧ health ≤ rec.thr ∧
    cfg.skills rec.name = some rec.key ∧
    ∀ t, rec.cdAtCheck = some t → t ≤ rec.checkTime) ∧
  (∀ rec ∈ r.1, ∀ c, cfg.cooldownCfg rec.name = some c →
    r.2 rec.name = some (rec.recordTime + c)) ∧
  (∀ rec ∈ r.1.dropLast, rec.name ∉ major_defense_skills) ∧
  (∀ n2 k, cfg.skills n2 = some k → k ∈ used → r.2 n2 = cd n2)

/-- Uppercase wire token produced by `press_key` for a given key argument
(`hardware_input.py` lines 245-253). -/
def press_token (key : String) : String :=
  if key = "mouse1" then "MOUSE1"
  else if key = "mouse2" then "MOUSE2"
  else key.toUpper

/-!
Theorems.  Each claim of the specification is settled below; helper lemmas
precede the claim theorems they support.
-/

/-- Hold delays clamped by `hold_delay` stay inside `[minDur, maxDur]` and
are positive when `minDur` is. -/
theorem hold_delay_bounds (minDur maxDur g : ℚ) (h0 : 0 < minDur)
    (h1 : minDur ≤ maxDur) :
    minDur ≤ hold_delay minDur maxDur g ∧ hold_delay minDur maxDur g ≤ maxDur ∧
    0 < hold_delay minDur maxDur g := by
  refine ⟨le_max_left _ _, max_le h1 (min_le_left _ _), ?_⟩
  exact lt_of_lt_of_le h0 (le_max_left _ _)

/-- C2 (counterexample).  The claimed interval
`[max(min_floor, nominal - spread), nominal + spread]` is violated at
`nominal = 1/200 > 0`, `spread = 0`: the clamped gaussian draw is 0 and the
minimum-duration floor pushes the result to `1/100`, above
`nominal + spread = 1/200`. -/
theorem smart_sleep_claimed_range_cex :
    ¬ smart_sleep_duration (1/200) 0 0 ≤ 1/200 + 0 := by
  norm_num [smart_sleep_duration]

/-- C2 (amended).  For `nominal > 0` and `spread ≥ 0` the gaussian-jittered
duration of `smart_sleep` lies in
`[max(min_floor, nominal - spread), max(min_floor, nominal + spread)]` with
`min_floor = 1/100`, for every raw gaussian draw `g`, and is strictly
positive; the upper end carries the same floor as the lower end, which the
claim omitted. -/
theorem smart_sleep_gaussian_range (nominal spread g : ℚ)
    (hn : 0 < nominal) (hs : 0 ≤ spread) :
    max (1/100) (nominal - spread) ≤ smart_sleep_duration nominal spread g ∧
    smart_sleep_duration nominal spread g ≤ max (1/100) (nominal + spread) ∧
    0 < smart_sleep_duration nominal spread g := by
  unfold smart_sleep_duration
  have hjl : -spread ≤ max (-spread) (min spread g) := le_max_left _ _
  have hju : max (-spread) (min spread g) ≤ spread :=
    max_le (by linarith) (min_le_left _ _)
  refine ⟨max_le_max le_rfl (by linarith), max_le_max le_rfl (by linarith), ?_⟩
  exact lt_of_lt_of_le (by norm_num) (le_max_left _ _)

/-- C2 (witness for the amended theorem) at `nominal = 3`, `spread = 1`,
`g = 5`. -/
theorem smart_sleep_gaussian_range_witness :
    max (1/100) (3 - 1) ≤ smart_sleep_duration 3 1 5 ∧
    smart_sleep_duration 3 1 5 ≤ max (1/100) (3 + 1) ∧
    0 < smart_sleep_duration 3 1 5 :=
  smart_sleep_gaussian_range 3 1 5 (by norm_num) (by norm_num)

/-- C8.  A sensor read error makes the has-target check report `true`
(assume a target is present, fail open) and makes the health check report 0
percent (fail safe); both checks are total functions of the read outcome, so
no error reaches the caller. -/
theorem sensor_error_defaults (e : String) :
    check_has_target (Except.error e) = true ∧
    check_health (Except.error e) = 0 :=
  ⟨rfl, rfl⟩

/-- C3 (counterexample).  From a state with one running worker, `stop()`
whose bounded `join(timeout=2.0)` times out (`joined = false`) still
returns and clears the flag; the following `start()` launches a second
worker while the first is still alive, so two workers run concurrently. -/
theorem ctrl_stop_start_cex :
    ¬ (ctrl_start (ctrl_stop ⟨false⟩ ⟨true, 1⟩).1).1.alive ≤ 1 := by
  decide

/-- C3 (amended).  When the worker thread does terminate within the bounded
join (`joined = true`) — the case the claim can guarantee — `stop()`
followed by `start()` leaves exactly one live worker; and `start()` while
already running is a no-op that returns `false` instead of launching a
second worker. -/
theorem ctrl_stop_start_single (c : Ctrl) (e : StopEnv)
    (hr : c.running = true) (ha : c.alive = 1) (hj : e.joined = true) :
    (ctrl_start (ctrl_stop e c).1).1.alive = 1 ∧
    (ctrl_start (ctrl_stop e c).1).1.running = true ∧
    ctrl_start c = (c, false) := by
  obtain ⟨running, alive⟩ := c
  subst hr ha
  simp [ctrl_start, ctrl_stop, hj]

/-- C3 (witness for the amended theorem) at one running worker and a join
that completes in time. -/
theorem ctrl_stop_start_single_witness :
    (ctrl_start (ctrl_stop ⟨true⟩ ⟨true, 1⟩).1).1.alive = 1 ∧
    (ctrl_start (ctrl_stop ⟨true⟩ ⟨true, 1⟩).1).1.running = true ∧
    ctrl_start ⟨true, 1⟩ = (⟨true, 1⟩, false) :=
  ctrl_stop_start_single ⟨true, 1⟩ ⟨true⟩ rfl rfl rfl

/-- C4.  A `send` with `wait_ack = false` on a closed link performs exactly
one reopen attempt, before anything is written; when the reopen fails the
call returns `false` and the event list is the failed reopen alone, so
nothing was written. -/
theorem send_closed_single_reopen (env : SendEnv) (cmd : String) :
    (send_serial_command false env cmd false).events.filter SerialEvent.isReopen
      = [SerialEvent.reopen env.reopenOk] ∧
    (send_serial_command false env cmd false).events.head?
      = some (SerialEvent.reopen env.reopenOk) ∧
    (env.reopenOk = false →
      (send_serial_command false env cmd false).ok = false ∧
      (send_serial_command false env cmd false).events = [SerialEvent.reopen false]) := by
  obtain ⟨ro, wo, ack⟩ := env
  cases ro <;> cases wo <;>
    simp [send_serial_command, SerialEvent.isReopen, SerialEvent.isWrite,
      List.filter]

/-- C4 (witness) at a closed link whose reopen fails. -/
theorem send_closed_single_reopen_witness :
    (send_serial_command false ⟨false, true, "OK"⟩ "KEY_DOWN,W" false).events.filter
        SerialEvent.isReopen = [SerialEvent.reopen false] ∧
    (send_serial_command false ⟨false, true, "OK"⟩ "KEY_DOWN,W" false).events.head?
      = some (SerialEvent.reopen false) ∧
    (false = false →
      (send_serial_command false ⟨false, true, "OK"⟩ "KEY_DOWN,W" false).ok = false ∧
      (send_serial_command false ⟨false, true, "OK"⟩ "KEY_DOWN,W" false).events
        = [SerialEvent.reopen false]) :=
  send_closed_single_reopen ⟨false, true, "OK"⟩ "KEY_DOWN,W"

/-- C5 (counterexample).  When the `KEY_DOWN` send fails (for example on a
dead link), `press_key` returns `false` immediately: only the failed
`KEY_DOWN` was submitted and no `KEY_UP` follows, so not every call emits
the down/up pair. -/
theorem press_key_pair_cex :
    ¬ (press_key "1" (1/20) (3/20) true ⟨false, true, 0, 0⟩).attempts.map
        Attempt.cmd = [Cmd.keyDown "1", Cmd.keyUp "1"] := by
  have h1 : ("1" : String) ≠ "mouse1" := by decide
  have h2 : ("1" : String) ≠ "mouse2" := by decide
  simp [press_key, h1, h2]

/-- C5 (amended).  Whenever the `KEY_DOWN` send succeeds (and, for the mouse
pseudo-keys, the `running` flag is set), `press_key` submits exactly one
`KEY_DOWN` followed by exactly one `KEY_UP` for the same uppercase token,
with a hold delay clamped into `[min_duration, max_duration]` and hence
strictly positive, whatever the outcome of the `KEY_UP` send; the
inter-action interval that follows the `KEY_UP` is an uninterruptible
`time.sleep` and cannot fail the call, so it never disturbs the pair. -/
theorem press_key_downup_pair (key : String) (minDur maxDur : ℚ)
    (env : PressEnv) (h0 : 0 < minDur) (h1 : minDur ≤ maxDur)
    (hd : env.downOk = true) :
    (press_key key minDur maxDur true env).attempts =
      [⟨Cmd.keyDown (press_token key), true⟩,
       ⟨Cmd.keyUp (press_token key), env.upOk⟩] ∧
    (press_key key minDur maxDur true env).ok = env.upOk ∧
    (press_key key minDur maxDur true env).delay = hold_delay minDur maxDur env.g ∧
    minDur ≤ (press_key key minDur maxDur true env).delay ∧
    (press_key key minDur maxDur true env).delay ≤ maxDur ∧
    0 < (press_key key minDur maxDur true env).delay := by
  obtain ⟨dOk, uOk, g, gi⟩ := env
  simp only at hd
  subst hd
  obtain ⟨b1, b2, b3⟩ := hold_delay_bounds minDur maxDur g h0 h1
  by_cases hm1 : key = "mouse1"
  · subst hm1
    cases uOk <;>
      simp_all [press_key, click_mouse, mouse_code, click_loop, click_once,
        press_token]
  · by_cases hm2 : key = "mouse2"
    · subst hm2
      cases uOk <;>
        simp_all [press_key, click_mouse, mouse_code, click_loop, click_once,
          press_token]
    · cases uOk <;> simp_all [press_key, press_token]

/-- C5 (witness for the amended theorem) at key `a`, bounds
`[1/20, 3/20]`, a successful pair of sends and a raw draw of `1/10`. -/
theorem press_key_downup_pair_witness :
    (press_key "a" (1/20) (3/20) true ⟨true, true, 1/10, 0⟩).attempts =
      [⟨Cmd.keyDown (press_token "a"), true⟩,
       ⟨Cmd.keyUp (press_token "a"), true⟩] ∧
    (press_key "a" (1/20) (3/20) true ⟨true, true, 1/10, 0⟩).ok = true ∧
    (press_key "a" (1/20) (3/20) true ⟨true, true, 1/10, 0⟩).delay
      = hold_delay (1/20) (3/20) (1/10) ∧
    1/20 ≤ (press_key "a" (1/20) (3/20) true ⟨true, true, 1/10, 0⟩).delay ∧
    (press_key "a" (1/20) (3/20) true ⟨true, true, 1/10, 0⟩).delay ≤ 3/20 ∧
    0 < (press_key "a" (1/20) (3/20) true ⟨true, true, 1/10, 0⟩).delay :=
  press_key_downup_pair "a" (1/20) (3/20) ⟨true, true, 1/10, 0⟩
    (by norm_num) (by norm_num) rfl

/-- C1.  Once the `KEY_DOWN,W` send of `moving_weave` has succeeded, every
exit path of the function — interrupted pre-move sleep, failed or
interrupted weave body, or full success — ends by submitting the matching
`KEY_UP,W`: the trace starts with the successful `KEY_DOWN,W` and its last
submitted command is `KEY_UP,W`. -/
theorem moving_weave_release (cfg : WeaveCfg) (attackKey skillKey : String)
    (env : WeaveEnv) (h : env.sendDownW = true) :
    (moving_weave cfg attackKey skillKey env).2.head?
      = some ⟨Cmd.keyDown "W", true⟩ ∧
    ((moving_weave cfg attackKey skillKey env).2.map Attempt.cmd).getLast?
      = some (Cmd.keyUp "W") := by
  unfold moving_weave
  rw [h]
  by_cases hm : env.sleepMoveOk
  · simp only [hm]
    refine ⟨by simp, ?_⟩
    simp
    rw [show Cmd.keyDown "W" ::
          (List.map Attempt.cmd (moving_weave_body cfg attackKey skillKey env).2 ++
            [Cmd.keyUp "W"]) =
        (Cmd.keyDown "W" ::
          List.map Attempt.cmd (moving_weave_body cfg attackKey skillKey env).2) ++
          Cmd.keyUp "W" :: [] from rfl]
    rw [List.getLast?_append_cons]
    rfl
  · simp [hm]

/-- C1 (witness) for a fully successful moving weave with attack key `e`
and skill key `3`. -/
theorem moving_weave_release_witness :
    (moving_weave ⟨1/20, 1/10, 1/20, 1/10⟩ "e" "3"
        ⟨true, true, ⟨true, true, 0, 0⟩, true, ⟨true, true, 0, 0⟩, true, true,
          true⟩).2.head? = some ⟨Cmd.keyDown "W", true⟩ ∧
    ((moving_weave ⟨1/20, 1/10, 1/20, 1/10⟩ "e" "3"
        ⟨true, true, ⟨true, true, 0, 0⟩, true, ⟨true, true, 0, 0⟩, true, true,
          true⟩).2.map Attempt.cmd).getLast? = some (Cmd.keyUp "W") :=
  moving_weave_release ⟨1/20, 1/10, 1/20, 1/10⟩ "e" "3"
    ⟨true, true, ⟨true, true, 0, 0⟩, true, ⟨true, true, 0, 0⟩, true, true,
      true⟩ rfl

/-- Helper: when the sensor never reports a target, every `select_target`
call exhausts its attempts and returns `false`. -/
theorem select_target_of_no_target (senv : Nat → SelEnv)
    (h : ∀ i, (senv i).hasTarget = false) :
    ∀ n i, select_target senv i n = false := by
  intro n
  induction n with
  | zero => intro i; rfl
  | succ n ih =>
    intro i
    by_cases h1 : (senv i).sleepOk
    · by_cases h2 : (senv i).sleepRetryOk
      · simp [select_target, h1, h2, h i, ih]
      · simp [select_target, h1, h2, h i]
    · simp [select_target, h1]

/-- C6.  While every sensor read stays false, iterated idle cycles never
leave `Idle`; each exhausted selection pass increments the stuck counter by
one, so after `k` cycles the counter is `k % MAX_STUCK_COUNT` and exactly
`k / MAX_STUCK_COUNT` anti-stuck maneuvers (two `s` retreat presses plus
one `space` jump) have fired, each firing resetting the counter to zero;
the maneuver of cycle `k + 1` fires exactly when the counter has reached
`MAX_STUCK_COUNT - 1 = 9`. -/
theorem idle_stuck_threshold (maxAttempts : Nat) (tops : Nat → Bool)
    (senvs : Nat → Nat → SelEnv)
    (htop : ∀ j, tops j = false)
    (hsen : ∀ j i, (senvs j i).hasTarget = false) (k : Nat) :
    idle_iter (fun j => ⟨tops j, select_target (senvs j) 0 maxAttempts⟩) k
      = (k % MAX_STUCK_COUNT, k / MAX_STUCK_COUNT) ∧
    (idle_handler
        (idle_iter (fun j => ⟨tops j, select_target (senvs j) 0 maxAttempts⟩) k).1
        ⟨tops k, select_target (senvs k) 0 maxAttempts⟩).state = BState.idle ∧
    (idle_handler
        (idle_iter (fun j => ⟨tops j, select_target (senvs j) 0 maxAttempts⟩) k).1
        ⟨tops k, select_target (senvs k) 0 maxAttempts⟩).maneuver
      = (if k % MAX_STUCK_COUNT = MAX_STUCK_COUNT - 1 then ["s", "s", "space"]
         else []) := by
  have hfalse : ∀ j, (⟨tops j, select_target (senvs j) 0 maxAttempts⟩ : IdleEnv)
      = ⟨false, false⟩ := by
    intro j
    rw [htop j, select_target_of_no_target (senvs j) (hsen j) maxAttempts 0]
  have hiter : ∀ m,
      idle_iter (fun j => ⟨tops j, select_target (senvs j) 0 maxAttempts⟩) m
        = (m % MAX_STUCK_COUNT, m / MAX_STUCK_COUNT) := by
    intro m
    induction m with
    | zero => simp [idle_iter]
    | succ m ih =>
      simp only [idle_iter, ih, hfalse m]
      have hlt : m % MAX_STUCK_COUNT < MAX_STUCK_COUNT :=
        Nat.mod_lt _ (by norm_num [MAX_STUCK_COUNT])
      simp only [idle_handler, MAX_STUCK_COUNT] at *
      split_ifs with h10 <;> simp_all [Prod.ext_iff] <;> omega
  have hlt : k % MAX_STUCK_COUNT < MAX_STUCK_COUNT :=
    Nat.mod_lt _ (by norm_num [MAX_STUCK_COUNT])
  refine ⟨hiter k, ?_, ?_⟩
  · rw [hiter k, hfalse k]
    simp only [idle_handler]
    split_ifs <;> simp_all
  · rw [hiter k, hfalse k]
    simp only [idle_handler, MAX_STUCK_COUNT] at *
    split_ifs <;> simp_all <;> omega

/-- C6 (witness): with an always-false sensor and 3 selection attempts per
cycle, after 10 idle cycles exactly one maneuver has fired and the counter
is back to zero; the maneuver of cycle 10 fired with the counter at 9. -/
theorem idle_stuck_threshold_witness :
    idle_iter
        (fun j => ⟨(fun _ => false) j,
          select_target ((fun _ _ => ⟨true, false, true⟩) j) 0 3⟩) 10
      = (10 % MAX_STUCK_COUNT, 10 / MAX_STUCK_COUNT) ∧
    (idle_handler
        (idle_iter
          (fun j => ⟨(fun _ => false) j,
            select_target ((fun _ _ => ⟨true, false, true⟩) j) 0 3⟩) 10).1
        ⟨(fun _ => false) 10,
          select_target ((fun _ _ => ⟨true, false, true⟩) 10) 0 3⟩).state
      = BState.idle ∧
    (idle_handler
        (idle_iter
          (fun j => ⟨(fun _ => false) j,
            select_target ((fun _ _ => ⟨true, false, true⟩) j) 0 3⟩) 10).1
        ⟨(fun _ => false) 10,
          select_target ((fun _ _ => ⟨true, false, true⟩) 10) 0 3⟩).maneuver
      = (if 10 % MAX_STUCK_COUNT = MAX_STUCK_COUNT - 1 then ["s", "s", "space"]
         else []) :=
  idle_stuck_threshold 3 (fun _ => false) (fun _ _ => ⟨true, false, true⟩)
    (fun _ => rfl) (fun _ _ => rfl) 10

/-- Helper: membership in the `dropLast` of a cons. -/
theorem mem_dropLast_cons {α : Type} {a x : α} {l : List α}
    (h : x ∈ (a :: l).dropLast) : (x = a ∧ l ≠ []) ∨ x ∈ l.dropLast := by
  cases l with
  | nil => simp at h
  | cons b t =>
    rw [List.dropLast_cons₂, List.mem_cons] at h
    rcases h with h | h
    · exact Or.inl ⟨h, by simp⟩
    · exact Or.inr h

/-- Helper: weakening the priority list of `DefenseInv` by an extra head
item. -/
theorem DefenseInv.weaken {cfg : DefCfg} {health : ℚ}
    {l : List (String × ℚ)} {hd : String × ℚ} {cd : String → Option ℚ}
    {used : List String} {count : Nat} {r : List FireRec × (String → Option ℚ)}
    (h : DefenseInv cfg health l cd used count r) :
    DefenseInv cfg health (hd :: l) cd used count r := by
  obtain ⟨h1, h2, h3, h4, h5, h6, h7⟩ := h
  exact ⟨h1, h2, h3,
    fun rec hm => ⟨List.mem_cons_of_mem _ (h4 rec hm).1, (h4 rec hm).2.1,
      (h4 rec hm).2.2.1, (h4 rec hm).2.2.2⟩,
    h5, h6, h7⟩

/-- Helper: `DefenseInv` for a pass that fires the head skill and stops
there (interrupted sleep or major skill). -/
theorem defense_fire_inv (cfg : DefCfg) (health : ℚ) (name key : String)
    (thr : ℚ) (e : DefStepEnv) (cd : String → Option ℚ) (used : List String)
    (count : Nat) (rest : List (String × ℚ))
    (hsk : cfg.skills name = some key) (hh : health ≤ thr)
    (hused : key ∉ used) (hcnt : count < 2)
    (hcdt : ∀ t, cd name = some t → t ≤ e.checkTime) :
    DefenseInv cfg health ((name, thr) :: rest) cd used count
      ([⟨name, key, thr, e.checkTime, e.recordTime, cd name⟩],
       record_cooldown cfg name e.recordTime cd) := by
  refine ⟨by simp, by simpa using hused, by simp; omega, ?_, ?_, by simp, ?_⟩
  · intro rec hm
    simp only [List.mem_singleton] at hm
    subst hm
    exact ⟨List.mem_cons_self _ _, hh, hsk, hcdt⟩
  · intro rec hm c hcc
    simp only [List.mem_singleton] at hm
    subst hm
    simp only at hcc ⊢
    simp [record_cooldown, hcc]
  · intro n2 k hk2 hku
    have hne : n2 ≠ name := by
      intro he
      subst he
      rw [hsk] at hk2
      cases hk2
      exact hused hku
    cases hcc : cfg.cooldownCfg name with
    | none => simp [record_cooldown, hcc]
    | some c => simp [record_cooldown, hcc, hne]

/-- Master invariant of the defensive-skill loop: `defense_go` satisfies
`DefenseInv` for every remaining priority list, index, cooldown table, used
list and count. -/
theorem defense_go_spec (cfg : DefCfg) (health : ℚ) (envs : Nat → DefStepEnv) :
    ∀ (l : List (String × ℚ)) (i : Nat) (cd : String → Option ℚ)
      (used : List String) (count : Nat),
    DefenseInv cfg health l cd used count
      (defense_go cfg health envs l i cd used count) := by
  intro l
  induction l with
  | nil =>
    intro i cd used count
    simp [defense_go, DefenseInv]
  | cons hd rest ih =>
    obtain ⟨name, thr⟩ := hd
    intro i cd used count
    by_cases hr : (envs i).running
    case neg =>
      simp [defense_go, hr, DefenseInv]
    by_cases hcnt : 2 ≤ count
    case pos =>
      simp [defense_go, hr, hcnt, DefenseInv]
    cases hsk : cfg.skills name with
    | none =>
      have h0 := ih (i + 1) cd used count
      simp only [defense_go, hr, hcnt, hsk]
      simp only [Bool.not_eq_true, if_false, ite_false, if_neg hcnt]
      exact h0.weaken
    | some key =>
      by_cases hh : health ≤ thr
      case neg =>
        have h0 := ih (i + 1) cd used count
        simp only [defense_go, hr, hcnt, hsk]
        simp only [Bool.not_eq_true, if_false, ite_false, if_neg hcnt,
          if_neg hh]
        exact h0.weaken
      by_cases hcd : ((cd name).any fun t => decide ((envs i).checkTime < t)) = true
      case pos =>
        have h0 := ih (i + 1) cd used count
        simp only [defense_go, hr, hcnt, hsk]
        simp only [Bool.not_eq_true, if_false, ite_false, if_neg hcnt,
          if_pos hh, if_pos hcd]
        exact h0.weaken
      by_cases hused : key ∈ used
      case pos =>
        have h0 := ih (i + 1) cd used count
        simp only [defense_go, hr, hcnt, hsk]
        simp only [Bool.not_eq_true, if_false, ite_false, if_neg hcnt,
          if_pos hh, if_neg hcd, if_pos hused]
        exact h0.weaken
      have hcdt : ∀ t, cd name = some t → t ≤ (envs i).checkTime := by
        intro t ht
        rw [ht] at hcd
        exact le_of_not_lt (by simpa using hcd)
      have hcnt2 : count < 2 := Nat.lt_of_not_le hcnt
      by_cases hslp : (envs i).sleepOk
      case neg =>
        simp only [defense_go, hsk]
        rw [if_neg (not_not_intro hr), if_neg hcnt, if_pos hh, if_neg hcd,
          if_neg hused, if_pos (by simpa using hslp)]
        exact defense_fire_inv cfg health name key thr (envs i) cd used count
          rest hsk hh hused hcnt2 hcdt
      by_cases hmaj : name ∈ major_defense_skills
      case pos =>
        simp only [defense_go, hsk]
        rw [if_neg (not_not_intro hr), if_neg hcnt, if_pos hh, if_neg hcd,
          if_neg hused, if_neg (by simpa using hslp), if_pos hmaj]
        exact defense_fire_inv cfg health name key thr (envs i) cd used count
          rest hsk hh hused hcnt2 hcdt
      simp only [defense_go, hsk]
      rw [if_neg (not_not_intro hr), if_neg hcnt, if_pos hh, if_neg hcd,
        if_neg hused, if_neg (by simpa using hslp), if_neg hmaj]
      obtain ⟨ih1, ih2, ih3, ih4, ih5, ih6, ih7⟩ :=
        ih (i + 1) (record_cooldown cfg name (envs i).recordTime cd)
          (used ++ [key]) (count + 1)
      have hkey_mem : key ∈ used ++ [key] :=
        List.mem_append_right _ (List.mem_singleton.mpr rfl)
      refine ⟨?_, ?_, ?_, ?_, ?_, ?_, ?_⟩
      · simp only [List.map_cons]
        rw [List.nodup_cons]
        refine ⟨?_, ih1⟩
        intro hmem
        obtain ⟨rec, hrec, hkeq⟩ := List.mem_map.mp hmem
        exact ih2 rec hrec (hkeq ▸ hkey_mem)
      · intro rec hm
        rcases List.mem_cons.mp hm with hm | hm
        · subst hm
          exact hused
        · exact fun hu => ih2 rec hm (List.mem_append_left _ hu)
      · simp only [List.length_cons]
        omega
      · intro rec hm
        rcases List.mem_cons.mp hm with hm | hm
        · subst hm
          exact ⟨List.mem_cons_self _ _, hh, hsk, hcdt⟩
        · obtain ⟨hmem, hth, hsk2, hcd2⟩ := ih4 rec hm
          exact ⟨List.mem_cons_of_mem _ hmem, hth, hsk2, hcd2⟩
      · intro rec hm c hcc
        rcases List.mem_cons.mp hm with hm | hm
        · subst hm
          simp only at hcc ⊢
          rw [ih7 name key hsk hkey_mem]
          simp [record_cooldown, hcc]
        · exact ih5 rec hm c hcc
      · intro rec hm
        rcases mem_dropLast_cons hm with ⟨hm, _⟩ | hm
        · subst hm
          exact hmaj
        · exact ih6 rec hm
      · intro n2 k hk2 hku
        have hne : n2 ≠ name := by
          intro he
          subst he
          rw [hsk] at hk2
          cases hk2
          exact hused hku
        rw [ih7 n2 k hk2 (List.mem_append_left _ hku)]
        simp only [record_cooldown]
        cases hcc : cfg.cooldownCfg name with
        | none => rfl
        | some c => simp [hne]

/-- C7.  One defensive-skill selection pass, for any priority-list ordering,
health value, cooldown table and runtime environment: no key fires twice,
at most the per-cycle cap of 2 skills fire, every fired skill was listed
with current health at or below its threshold, was configured, and was off
cooldown at its check time, and every fired skill with a configured
cooldown has its new expiry recorded in the final table. -/
theorem defense_selection_invariants (cfg : DefCfg) (health : ℚ)
    (envs : Nat → DefStepEnv) (cd0 : String → Option ℚ) :
    (((use_defense_skills cfg health envs cd0).1.map FireRec.key).Nodup) ∧
    (use_defense_skills cfg health envs cd0).1.length ≤ 2 ∧
    (∀ rec ∈ (use_defense_skills cfg health envs cd0).1,
      (rec.name, rec.thr) ∈ cfg.priorities ∧ health ≤ rec.thr ∧
      cfg.skills rec.name = some rec.key ∧
      ∀ t, rec.cdAtCheck = some t → t ≤ rec.checkTime) ∧
    (∀ rec ∈ (use_defense_skills cfg health envs cd0).1,
      ∀ c, cfg.cooldownCfg rec.name = some c →
        (use_defense_skills cfg health envs cd0).2 rec.name
          = some (rec.recordTime + c)) := by
  obtain ⟨h1, h2, h3, h4, h5, h6, h7⟩ :=
    defense_go_spec cfg health envs cfg.priorities 0 cd0 [] 0
  exact ⟨h1, by simpa using h3, h4, h5⟩

/-- C7 (witness): the spec's scenario B — health 25 with priorities
`shield` at threshold 30 then `heal` at 50, both configured and off
cooldown. -/
theorem defense_selection_invariants_witness :
    (((use_defense_skills
        ⟨[("shield", 30), ("heal", 50)],
          fun n => if n = "shield" then some "4"
            else if n = "heal" then some "5" else none,
          fun n => if n = "shield" then some 60
            else if n = "heal" then some 30 else none⟩
        25 (fun _ => ⟨true, 0, 0, true⟩) (fun _ => none)).1.map
          FireRec.key).Nodup) ∧
    (use_defense_skills
        ⟨[("shield", 30), ("heal", 50)],
          fun n => if n = "shield" then some "4"
            else if n = "heal" then some "5" else none,
          fun n => if n = "shield" then some 60
            else if n = "heal" then some 30 else none⟩
        25 (fun _ => ⟨true, 0, 0, true⟩) (fun _ => none)).1.length ≤ 2 ∧
    (∀ rec ∈ (use_defense_skills
        ⟨[("shield", 30), ("heal", 50)],
          fun n => if n = "shield" then some "4"
            else if n = "heal" then some "5" else none,
          fun n => if n = "shield" then some 60
            else if n = "heal" then some 30 else none⟩
        25 (fun _ => ⟨true, 0, 0, true⟩) (fun _ => none)).1,
      (rec.name, rec.thr) ∈
        ([("shield", 30), ("heal", 50)] : List (String × ℚ)) ∧
      (25 : ℚ) ≤ rec.thr ∧
      (fun n => if n = "shield" then some "4"
        else if n = "heal" then some "5" else none) rec.name = some rec.key ∧
      ∀ t, rec.cdAtCheck = some t → t ≤ rec.checkTime) ∧
    (∀ rec ∈ (use_defense_skills
        ⟨[("shield", 30), ("heal", 50)],
          fun n => if n = "shield" then some "4"
            else if n = "heal" then some "5" else none,
          fun n => if n = "shield" then some 60
            else if n = "heal" then some 30 else none⟩
        25 (fun _ => ⟨true, 0, 0, true⟩) (fun _ => none)).1,
      ∀ c, (fun n => if n = "shield" then some 60
          else if n = "heal" then some 30 else none) rec.name = some c →
        (use_defense_skills
          ⟨[("shield", 30), ("heal", 50)],
            fun n => if n = "shield" then some "4"
              else if n = "heal" then some "5" else none,
            fun n => if n = "shield" then some 60
              else if n = "heal" then some 30 else none⟩
          25 (fun _ => ⟨true, 0, 0, true⟩) (fun _ => none)).2 rec.name
          = some (rec.recordTime + c)) :=
  defense_selection_invariants
    ⟨[("shield", 30), ("heal", 50)],
      fun n => if n = "shield" then some "4"
        else if n = "heal" then some "5" else none,
      fun n => if n = "shield" then some 60
        else if n = "heal" then some 30 else none⟩
    25 (fun _ => ⟨true, 0, 0, true⟩) (fun _ => none)

/-- C10.  Whenever the defensive pass fires `dual_armor`, `god_armor` or
`nazeal_shield`, the loop breaks immediately after it, so a major defensive
skill can only be the last fired record of the pass: nothing before the
last fired record is major. -/
theorem defense_major_stops_pass (cfg : DefCfg) (health : ℚ)
    (envs : Nat → DefStepEnv) (cd0 : String → Option ℚ) :
    ∀ rec ∈ (use_defense_skills cfg health envs cd0).1.dropLast,
      rec.name ∉ major_defense_skills := by
  obtain ⟨h1, h2, h3, h4, h5, h6, h7⟩ :=
    defense_go_spec cfg health envs cfg.priorities 0 cd0 [] 0
  exact h6

/-- C10 (witness): with `heal` (threshold 50) ahead of `dual_armor`
(threshold 60) and health 25, both fire; the non-last fired record is
`heal`, which is indeed not major. -/
theorem defense_major_stops_pass_witness :
    FireRec.name ⟨"heal", "4", 50, 0, 0, none⟩ ∉ major_defense_skills :=
  defense_major_stops_pass
    ⟨[("heal", 50), ("dual_armor", 60)],
      fun n => if n = "heal" then some "4"
        else if n = "dual_armor" then some "5" else none,
      fun _ => none⟩
    25 (fun _ => ⟨true, 0, 0, true⟩) (fun _ => none)
    ⟨"heal", "4", 50, 0, 0, none⟩ (by decide)

/-- Helper: a De Casteljau reduction pass shortens the list by one. -/
theorem deCasteljauStep_length (t : ℚ) :
    ∀ l : List (ℚ × ℚ), (deCasteljauStep t l).length = l.length - 1 := by
  intro l
  induction l with
  | nil => rfl
  | cons p rest ih =>
    cases rest with
    | nil => rfl
    | cons q rest2 =>
      simp only [deCasteljauStep, List.length_cons] at ih ⊢
      omega

/-- Helper: at parameter 0 a reduction pass keeps every point but the
last. -/
theorem deCasteljauStep_zero :
    ∀ l : List (ℚ × ℚ), deCasteljauStep 0 l = l.dropLast := by
  intro l
  induction l with
  | nil => rfl
  | cons p rest ih =>
    cases rest with
    | nil => rfl
    | cons q rest2 =>
      have hl : lerp 0 p q = p := by
        simp [lerp]
      simp only [deCasteljauStep] at ih ⊢
      rw [hl, ih, List.dropLast_cons₂]

/-- Helper: at parameter 1 a reduction pass drops the first point. -/
theorem deCasteljauStep_one :
    ∀ l : List (ℚ × ℚ), deCasteljauStep 1 l = l.tail := by
  intro l
  induction l with
  | nil => rfl
  | cons p rest ih =>
    cases rest with
    | nil => rfl
    | cons q rest2 =>
      have hl : lerp 1 p q = q := by
        simp [lerp]
      simp only [deCasteljauStep] at ih ⊢
      rw [hl, ih]
      rfl

/-- Helper: iterated reduction at parameter 0 preserves the head while
passes remain within the list length. -/
theorem deCasteljauAux_zero_head :
    ∀ (n : Nat) (l : List (ℚ × ℚ)), n < l.length →
      (deCasteljauAux 0 n l).headD (0, 0) = l.headD (0, 0) := by
  intro n
  induction n with
  | zero => intro l _; rfl
  | succ n ih =>
    intro l hn
    simp only [deCasteljauAux, deCasteljauStep_zero]
    have hlen : n < l.dropLast.length := by
      simp only [List.length_dropLast]
      omega
    rw [ih l.dropLast hlen]
    cases l with
    | nil => simp at hn
    | cons a rest =>
      cases rest with
      | nil => simp at hn
      | cons b rest2 =>
        rw [List.dropLast_cons₂]
        rfl

/-- Helper: iterated reduction at parameter 1 is an iterated drop. -/
theorem deCasteljauAux_one :
    ∀ (n : Nat) (l : List (ℚ × ℚ)), deCasteljauAux 1 n l = l.drop n := by
  intro n
  induction n with
  | zero => intro l; rfl
  | succ n ih =>
    intro l
    simp only [deCasteljauAux, deCasteljauStep_one, ih, ← List.drop_one,
      List.drop_drop]
    rw [Nat.add_comm]

/-- Helper: truncation is the identity on integer points. -/
theorem truncPt_intCast (a b : ℤ) : truncPt ((a : ℚ), (b : ℚ)) = (a, b) := by
  unfold truncPt
  have h1 : ∀ c : ℤ, (if (c : ℚ) < 0 then -Int.floor (-(c : ℚ))
      else Int.floor ((c : ℚ))) = c := by
    intro c
    split_ifs with h
    · rw [show (-(c : ℚ)) = ((-c : ℤ) : ℚ) by push_cast; ring,
        Int.floor_intCast, neg_neg]
    · exact Int.floor_intCast c
  simp only [h1]

/-- Helper: the per-step displacements of a walk telescope to last minus
first. -/
theorem sumPts_stepDeltas :
    ∀ (l : List (ℤ × ℤ)) (p : ℤ × ℤ),
      sumPts (stepDeltas (p :: l)) =
        ((((p :: l).getLast?).getD (0, 0)).1 - p.1,
         (((p :: l).getLast?).getD (0, 0)).2 - p.2) := by
  intro l
  induction l with
  | nil => intro p; simp [stepDeltas, sumPts, List.getLast?]
  | cons q rest ih =>
    intro p
    rw [List.getLast?_cons_cons]
    simp only [stepDeltas, sumPts, ih q]
    rw [Prod.ext_iff]
    constructor <;> dsimp only <;> ring

/-- Helper: a walk with the flag set and every send succeeding reports
success and emits one `MOUSE_MOVE` per displacement. -/
theorem mouse_walk_all_ok :
    ∀ (l : List (ℤ × ℤ)) (i : Nat),
      mouse_walk true (fun _ => true) l i =
        (true, l.map fun d => Cmd.mouseMove d.1 d.2) := by
  intro l
  induction l with
  | nil => intro i; rfl
  | cons d rest ih =>
    intro i
    simp [mouse_walk, ih (i + 1)]

/-- C9.  For every displacement `(dx, dy)` and every pair of random
control-point offsets, the sampled Bezier path of `send_mouse_input` starts
at `(0, 0)` and ends exactly at `(dx, dy)` despite the truncation of
intermediate points, the per-step deltas telescope to exactly `(dx, dy)`,
and a completed walk (flag set, every send succeeding) emits exactly one
`MOUSE_MOVE` per consecutive pair of sampled points and reports success. -/
theorem bezier_path_deltas_sum (dx dy : ℤ) (o1 o2 : ℤ × ℤ) :
    (generate_bezier_curve (0, 0) (dx, dy) o1 o2 20).head? = some (0, 0) ∧
    (generate_bezier_curve (0, 0) (dx, dy) o1 o2 20).getLast? = some (dx, dy) ∧
    sumPts (stepDeltas (generate_bezier_curve (0, 0) (dx, dy) o1 o2 20))
      = (dx, dy) ∧
    send_mouse_input dx dy o1 o2 true (fun _ => true) =
      (true,
        (stepDeltas (generate_bezier_curve (0, 0) (dx, dy) o1 o2 20)).map
          fun d => Cmd.mouseMove d.1 d.2) := by
  set pts := bezier_points (0, 0) (dx, dy) o1 o2 with hpts
  have hlen : pts.length = 4 := rfl
  have h0 : truncPt (deCasteljau (((0 : ℕ) : ℚ) / ((20 : ℕ) : ℚ)) pts)
      = ((0 : ℤ), (0 : ℤ)) := by
    rw [show (((0 : ℕ) : ℚ) / ((20 : ℕ) : ℚ)) = 0 by norm_num]
    have hz : deCasteljau 0 pts = pts.headD (0, 0) := by
      unfold deCasteljau
      exact deCasteljauAux_zero_head (pts.length - 1) pts (by omega)
    rw [hz]
    exact truncPt_intCast 0 0
  have h20 : truncPt (deCasteljau (((20 : ℕ) : ℚ) / ((20 : ℕ) : ℚ)) pts)
      = (dx, dy) := by
    rw [show (((20 : ℕ) : ℚ) / ((20 : ℕ) : ℚ)) = 1 by norm_num]
    unfold deCasteljau
    rw [deCasteljauAux_one]
    exact truncPt_intCast dx dy
  have hcurve : generate_bezier_curve (0, 0) (dx, dy) o1 o2 20 =
      (List.range 21).map
        (fun t : ℕ => truncPt (deCasteljau ((t : ℚ) / ((20 : ℕ) : ℚ)) pts)) := rfl
  have hhead : (generate_bezier_curve (0, 0) (dx, dy) o1 o2 20).head?
      = some ((0 : ℤ), (0 : ℤ)) := by
    rw [hcurve,
      show List.range 21 = 0 :: (List.range 20).map Nat.succ from
        List.range_succ_eq_map 20]
    simpa using h0
  have hlast : (generate_bezier_curve (0, 0) (dx, dy) o1 o2 20).getLast?
      = some (dx, dy) := by
    rw [hcurve,
      show List.range 21 = List.range 20 ++ [20] from List.range_succ 20,
      List.map_append]
    simp only [List.map_cons, List.map_nil]
    rw [List.getLast?_concat]
    simpa using h20
  have hsum : sumPts (stepDeltas (generate_bezier_curve (0, 0) (dx, dy) o1 o2 20))
      = (dx, dy) := by
    have hdecomp : generate_bezier_curve (0, 0) (dx, dy) o1 o2 20 =
        truncPt (deCasteljau (((0 : ℕ) : ℚ) / ((20 : ℕ) : ℚ)) pts) ::
          ((List.range 20).map Nat.succ).map
            (fun t : ℕ => truncPt (deCasteljau ((t : ℚ) / ((20 : ℕ) : ℚ)) pts)) := by
      rw [hcurve,
        show List.range 21 = 0 :: (List.range 20).map Nat.succ from
          List.range_succ_eq_map 20]
      rfl
    rw [hdecomp, sumPts_stepDeltas, ← hdecomp, hlast, h0]
    simp
  refine ⟨hhead, hlast, hsum, ?_⟩
  unfold send_mouse_input
  exact mouse_walk_all_ok _ 0
